import Mathlib

/-!
Shallow embedding of the notebook-mining component catalog of the
StoryMath backend (src/backend/templates.py) and proofs of the spec
claims about it.

The embedding models:
- the JSON values a parsed notebook file yields, and the Python errors
  the code can raise while walking them;
- the subset of the Python ast node model the code consumes
  (top-level class definitions with base expressions and line spans),
  with the parser itself abstracted as an oracle
  String -> Option (List PyStmt), since the code only ever inspects the
  top-level statements of a successfully parsed module;
- the functions of templates.py, translated line by line:
  _extract_code_cells, _extract_classes_from_source,
  _find_component_cell, TemplateCatalog._load and the query methods.
-/

namespace StoryMath

/-! ### Python-side base values -/

/-- Errors the translated Python code can raise. -/
inductive PyErr where
  | jsonDecodeError
  | osError
  | attributeError
  | typeError
deriving DecidableEq, Repr

/-- JSON values as produced by json.load. -/
inductive JValue where
  | jnull
  | jbool (b : Bool)
  | jnum (n : Int)
  | jstr (s : String)
  | jarr (elems : List JValue)
  | jobj (fields : List (String × JValue))
deriving Repr

/-- Python equality of a dict.get result with the string literal
"code": true exactly when the value is that string. -/
def eqStrCode (v : Option JValue) : Bool :=
  match v with
  | some (.jstr s) => s == "code"
  | _ => false

/-- Whitespace in the sense of Python str.strip / str.rstrip
(the ASCII whitespace characters; the notebook sources contain no
exotic unicode whitespace). -/
def pyIsSpace (c : Char) : Bool :=
  c == ' ' || c == '\t' || c == '\n' || c == '\r' || c == '\x0b' || c == '\x0c'

/-- Python str.strip(). -/
def pyStrip (s : String) : String :=
  String.mk (((s.data.dropWhile pyIsSpace).reverse.dropWhile pyIsSpace).reverse)

/-- Python str.rstrip(). -/
def pyRstrip (s : String) : String :=
  String.mk ((s.data.reverse.dropWhile pyIsSpace).reverse)

/-- Python dict.get on a JSON value: returns the value under the key when
the receiver is an object (none when the key is absent), and raises
AttributeError when the receiver is not a dict, as Python does. -/
def dictGet (v : JValue) (key : String) : Except PyErr (Option JValue) :=
  match v with
  | .jobj fields => .ok (fields.lookup key)
  | _ => .error .attributeError

/-- Iteration over a JSON value, as Python for-loops see it: lists yield
their elements, strings their characters, dicts their keys; other values
raise TypeError. -/
def pyIter (v : JValue) : Except PyErr (List JValue) :=
  match v with
  | .jarr elems => .ok elems
  | .jstr s => .ok (s.data.map (fun c => .jstr (String.mk [c])))
  | .jobj fields => .ok (fields.map (fun p => .jstr p.1))
  | _ => .error .typeError

/-- Python "".join(source) over a JSON list: every element must be a
string, otherwise TypeError. -/
def joinStrs (elems : List JValue) : Except PyErr String :=
  elems.foldlM (fun acc v =>
    match v with
    | JValue.jstr s => Except.ok (acc ++ s)
    | _ => Except.error PyErr.typeError) ""

/-! ### Cell Extractor (_extract_code_cells) -/

/-- Body of the per-cell loop of _extract_code_cells: decides what a
single cell contributes (some text for a non-blank code cell, none for
anything skipped), raising where Python would. -/
def processCell (cell : JValue) : Except PyErr (Option String) :=
  match dictGet cell "cell_type" with
  | .error e => .error e
  | .ok ct =>
    if eqStrCode ct = false then .ok none
    else
      match dictGet cell "source" with
      | .error e => .error e
      | .ok srcOpt =>
        match srcOpt.getD (JValue.jarr []) with
        | JValue.jarr elems =>
          match joinStrs elems with
          | .error e => .error e
          | .ok text => .ok (if pyStrip text ≠ "" then some text else none)
        | JValue.jstr s => .ok (if pyStrip s ≠ "" then some s else none)
        | _ => .error .attributeError

/-- The accumulation loop of _extract_code_cells over the cells list. -/
def cellsLoop : List JValue → List String → Except PyErr (List String)
  | [], acc => .ok acc
  | cell :: rest, acc =>
    match processCell cell with
    | .error e => .error e
    | .ok none => cellsLoop rest acc
    | .ok (some text) => cellsLoop rest (acc ++ [text])

/-- Translation of _extract_code_cells, applied to the JSON value the
notebook file parses to. -/
def extractCodeCells (nb : JValue) : Except PyErr (List String) :=
  match dictGet nb "cells" with
  | .error e => .error e
  | .ok cellsOpt =>
    match pyIter (cellsOpt.getD (JValue.jarr [])) with
    | .error e => .error e
    | .ok items => cellsLoop items []

/-- Reading and extracting one notebook file: the argument models the
outcome of open + json.load (an error for an unreadable file or
undecodable JSON); _extract_code_cells then runs on the parsed value.
Errors propagate, as the Python code installs no handler here. -/
def extractCodeCellsFile (content : Except PyErr JValue) : Except PyErr (List String) :=
  match content with
  | .error e => .error e
  | .ok nb => extractCodeCells nb

/-! ### The ast subset the code consumes -/

/-- A base-class expression of a class definition, as the code reads it:
a bare name, a dotted attribute access (carried as its ast.unparse
text), or any other expression form (which the code ignores). -/
inductive PyBase where
  | bname (id : String)
  | battr (dotted : String)
  | bother
deriving DecidableEq, Repr

/-- A top-level ast.ClassDef as the code consumes it: name, base
expressions in declaration order, 1-based start line, and the optional
end line (getattr(node, "end_lineno", None)). -/
structure PyClassDef where
  name : String
  bases : List PyBase
  lineno : Nat
  endLineno : Option Nat
deriving DecidableEq, Repr

/-- A top-level statement of a parsed module: a class definition or
anything else (the code skips non-ClassDef nodes). -/
inductive PyStmt where
  | classDef (c : PyClassDef)
  | other
deriving DecidableEq, Repr

/-- The parser, abstracted: ast.parse either fails with SyntaxError
(none) or yields the top-level statements of the module. -/
abbrev PyParse := String → Option (List PyStmt)

/-- Python str.splitlines(keepends=True), over the line boundaries
occurring in the notebook sources (newline, carriage return, CRLF). -/
def splitlinesAux : List Char → List Char → List String
  | [], [] => []
  | [], acc => [String.mk acc.reverse]
  | '\r' :: '\n' :: rest, acc => String.mk (acc.reverse ++ ['\r', '\n']) :: splitlinesAux rest []
  | '\n' :: rest, acc => String.mk (acc.reverse ++ ['\n']) :: splitlinesAux rest []
  | '\r' :: rest, acc => String.mk (acc.reverse ++ ['\r']) :: splitlinesAux rest []
  | c :: rest, acc => splitlinesAux rest (c :: acc)

/-- Python source.splitlines(keepends=True). -/
def splitlinesKeepends (s : String) : List String :=
  splitlinesAux s.data []

/-- Substring test, as the Python in-operator on strings. -/
def strContains (s pattern : String) : Bool :=
  decide (List.IsInfix pattern.data s.data)

/-! ### Fixed tables of templates.py -/

/-- SCENE_BASES. -/
def SCENE_BASES : List String :=
  ["Scene", "ThreeDScene", "MovingCameraScene", "ZoomedScene"]

/-- CATEGORY_MAP. -/
def CATEGORY_MAP : List (String × String) :=
  [("Node", "circuit_elements"),
   ("Wire", "circuit_elements"),
   ("Resistor", "circuit_elements"),
   ("Capacitor", "circuit_elements"),
   ("Inductor", "circuit_elements"),
   ("JosephsonJunction", "circuit_elements"),
   ("Ground", "circuit_elements"),
   ("ReferenceGrid", "circuit_elements"),
   ("CooperPairBox", "superconducting"),
   ("resonator", "superconducting"),
   ("TransistorSymbol", "superconducting"),
   ("SwitchSymbol", "superconducting"),
   ("Transmon", "superconducting"),
   ("Hadamard", "quantum_gates"),
   ("Oracle", "quantum_gates"),
   ("Not", "quantum_gates"),
   ("Measurement", "quantum_gates"),
   ("Identity", "quantum_gates"),
   ("Zgate", "quantum_gates"),
   ("Cnot", "quantum_gates"),
   ("Register", "quantum_gates"),
   ("GeneralAtom", "atoms"),
   ("NeutralAtom", "atoms"),
   ("RydbergAtom", "atoms"),
   ("MajoranaParticle", "atoms"),
   ("ElectronSpinObject", "spin"),
   ("SpinFlip", "spin"),
   ("BlochSphere", "bloch_sphere"),
   ("ComplexityComparison", "complexity")]

/-- CATEGORY_LABELS. -/
def CATEGORY_LABELS : List (String × String) :=
  [("quantum_gates", "Quantum Gates"),
   ("circuit_elements", "Circuit Elements"),
   ("atoms", "Atoms & Particles"),
   ("bloch_sphere", "Bloch Sphere"),
   ("spin", "Electron Spin"),
   ("superconducting", "Superconducting Qubits"),
   ("complexity", "Complexity"),
   ("other", "Other")]

/-- The TemplateClass dataclass. -/
structure TemplateClass where
  name : String
  source : String
  base_classes : List String
  is_scene : Bool
  requires_latex : Bool
  category : String
  notebook : String
deriving DecidableEq, Repr

/-! ### Class Extractor (_extract_classes_from_source) -/

/-- Base-name collection of _extract_classes_from_source: a Name base
contributes its id, an Attribute base its unparsed dotted text, other
base forms nothing. -/
def baseNamesOf (bases : List PyBase) : List String :=
  bases.filterMap (fun b =>
    match b with
    | .bname id => some id
    | .battr dotted => some dotted
    | .bother => none)

/-- The backward walk over trailing blank lines in the end-line
fallback of _extract_classes_from_source. -/
def walkBackBlank (lines : List String) (start : Nat) : Nat → Nat
  | e =>
    if h : start < e ∧ pyStrip (lines.getD (e - 1) "") = "" then
      walkBackBlank lines start (e - 1)
    else e
termination_by e => e
decreasing_by
  exact Nat.sub_lt (Nat.lt_of_lt_of_le (Nat.zero_lt_of_lt h.1) (Nat.le_refl e)) Nat.one_pos

/-- End-line fallback of _extract_classes_from_source, used when the
parser reports no end_lineno: the line before the next top-level class
(first in iteration order with a greater start line), walking back over
blank lines, else the end of the source. -/
def fallbackEnd (stmts : List PyStmt) (node : PyClassDef) (lines : List String) (start : Nat) : Nat :=
  match stmts.find? (fun s =>
      match s with
      | .classDef o => decide (node.lineno < o.lineno)
      | .other => false) with
  | some (.classDef o) => walkBackBlank lines start (o.lineno - 1)
  | _ => lines.length

/-- Construction of one TemplateClass from a top-level ClassDef, as in
the loop body of _extract_classes_from_source. -/
def buildClass (stmts : List PyStmt) (lines : List String) (notebookName : String)
    (node : PyClassDef) : TemplateClass :=
  let base_names := baseNamesOf node.bases
  let start := node.lineno - 1
  let e :=
    match node.endLineno with
    | some e => e
    | none => fallbackEnd stmts node lines start
  let class_source := pyRstrip (String.join ((lines.drop start).take (e - start)))
  let is_scene := base_names.any (fun b => SCENE_BASES.contains b)
  let requires_latex := strContains class_source "MathTex" || strContains class_source "Tex("
  let category :=
    match CATEGORY_MAP.lookup node.name with
    | some c => c
    | none => if is_scene then "examples" else "other"
  { name := node.name
    source := class_source
    base_classes := base_names
    is_scene := is_scene
    requires_latex := requires_latex
    category := category
    notebook := notebookName }

/-- Translation of _extract_classes_from_source: on SyntaxError an
empty list, otherwise one TemplateClass per top-level class definition,
in declaration order. -/
def extractClassesFromSource (parse : PyParse) (source : String) (notebookName : String) :
    List TemplateClass :=
  match parse source with
  | none => []
  | some stmts =>
    let lines := splitlinesKeepends source
    stmts.filterMap (fun stmt =>
      match stmt with
      | .classDef node => some (buildClass stmts lines notebookName node)
      | .other => none)

/-! ### Component-Cell Selector (_find_component_cell) -/

/-- Loop body of the count in _find_component_cell: a class definition
whose Name bases avoid SCENE_BASES bumps the counter (Attribute bases
are not collected in this function). -/
def componentCountStep (n : Nat) (s : PyStmt) : Nat :=
  match s with
  | .classDef node =>
    let base_names := node.bases.filterMap (fun b =>
      match b with
      | .bname id => some id
      | _ => none)
    if base_names.any (fun b => SCENE_BASES.contains b) then n else n + 1
  | .other => n

/-- Inner count of _find_component_cell over the top-level statements
of one cell. -/
def componentCount (stmts : List PyStmt) : Nat :=
  stmts.foldl componentCountStep 0

/-- The score _find_component_cell assigns to one cell: zero on
SyntaxError, else the component count of its top-level statements. -/
def cellScore (parse : PyParse) (cell : String) : Nat :=
  match parse cell with
  | none => 0
  | some stmts => componentCount stmts

/-- The scan step of _find_component_cell (best_cell, best_count). -/
def findStep (parse : PyParse) (best : Option String × Nat) (cell : String) :
    Option String × Nat :=
  match parse cell with
  | none => best
  | some stmts =>
    let count := componentCount stmts
    if best.2 < count then (some cell, count) else best

/-- Translation of _find_component_cell. -/
def findComponentCell (parse : PyParse) (cells : List String) : Option String :=
  (cells.foldl (findStep parse) (none, 0)).1

/-! ### TemplateCatalog -/

/-- The catalog state: the three indexes of TemplateCatalog together
with the two seen-name sets that are local to _load (modelled as lists
of names; only membership is consulted). -/
structure CatalogState where
  components : List TemplateClass
  examples : List TemplateClass
  byName : String → Option TemplateClass
  seenComponents : List String
  seenExamples : List String

/-- The state of a freshly constructed (pre-_load) TemplateCatalog. -/
def initCatalogState : CatalogState :=
  { components := []
    examples := []
    byName := fun _ => none
    seenComponents := []
    seenExamples := [] }

instance : Inhabited CatalogState := ⟨initCatalogState⟩

/-- Component registration step of _load: a class is appended exactly
when it is not a scene and its name is unseen among components; the
name index is overwritten at its name (Python dict assignment). -/
def registerComponent (st : CatalogState) (cls : TemplateClass) : CatalogState :=
  if cls.is_scene = false ∧ cls.name ∉ st.seenComponents then
    { st with
      seenComponents := st.seenComponents ++ [cls.name]
      components := st.components ++ [cls]
      byName := fun n => if n = cls.name then some cls else st.byName n }
  else st

/-- Example registration step of _load: a class is appended exactly
when it is a scene and its name is unseen among examples. -/
def registerExample (st : CatalogState) (cls : TemplateClass) : CatalogState :=
  if cls.is_scene = true ∧ cls.name ∉ st.seenExamples then
    { st with
      seenExamples := st.seenExamples ++ [cls.name]
      examples := st.examples ++ [cls]
      byName := fun n => if n = cls.name then some cls else st.byName n }
  else st

/-- Processing of one notebook inside _load: extract the code cells
(errors propagate — the loop body installs no handler), find the
component cell, register its non-scene classes as components, then
register the scene classes of every other cell as examples. -/
def processNotebook (parse : PyParse) (st : CatalogState)
    (nb : String × Except PyErr JValue) : Except PyErr CatalogState :=
  match extractCodeCellsFile nb.2 with
  | .error e => .error e
  | .ok cells =>
    let componentCell := findComponentCell parse cells
    let st1 :=
      match componentCell with
      | some cc =>
        if cc ≠ "" then
          (extractClassesFromSource parse cc nb.1).foldl registerComponent st
        else st
      | none => st
    let st2 := cells.foldl (fun s cellSource =>
      if componentCell = some cellSource then s
      else (extractClassesFromSource parse cellSource nb.1).foldl registerExample s) st1
    .ok st2

/-- The notebook loop of _load. -/
def loadAux (parse : PyParse) :
    CatalogState → List (String × Except PyErr JValue) → Except PyErr CatalogState
  | st, [] => .ok st
  | st, nb :: rest =>
    match processNotebook parse st nb with
    | .error e => .error e
    | .ok st1 => loadAux parse st1 rest

/-- Translation of TemplateCatalog._load: the notebooks are given as
the lexicographically sorted list of (stem, file content) pairs, each
content being the outcome of open + json.load. A missing samples
directory or an empty glob is the empty list. -/
def load (parse : PyParse) (notebooks : List (String × Except PyErr JValue)) :
    Except PyErr CatalogState :=
  loadAux parse initCatalogState notebooks

/-! ### TemplateCatalog query operations -/

/-- get_components. -/
def getComponents (st : CatalogState) : List TemplateClass :=
  st.components

/-- get_examples. -/
def getExamples (st : CatalogState) : List TemplateClass :=
  st.examples

/-- get_by_name. -/
def getByName (st : CatalogState) (name : String) : Option TemplateClass :=
  st.byName name

/-- get_by_category. -/
def getByCategory (st : CatalogState) (category : String) : List TemplateClass :=
  st.components.filter (fun c => c.category == category)

/-- get_component_source. -/
def getComponentSource (st : CatalogState) (names : Option (List String)) : String :=
  let targets :=
    match names with
    | none => st.components
    | some ns => st.components.filter (fun c => ns.contains c.name)
  if targets.isEmpty then ""
  else String.intercalate "\n\n\n" (targets.map (fun cls => cls.source))

/-- The category label get_summary prints: CATEGORY_LABELS.get with the
raw category as default. -/
def labelOf (category : String) : String :=
  (CATEGORY_LABELS.lookup category).getD category

/-- The bullet line get_summary prints for one component. -/
def summaryBullet (comp : TemplateClass) : String :=
  let bases := String.intercalate ", " comp.base_classes
  let latexTag := if comp.requires_latex then " [uses LaTeX]" else ""
  "- `" ++ comp.name ++ "` (extends " ++ bases ++ ")" ++ latexTag

/-- The line-building loop of get_summary, carrying (lines,
current_cat). -/
def summaryStep (acc : List String × String) (comp : TemplateClass) : List String × String :=
  let catLabel := labelOf comp.category
  let acc1 :=
    if catLabel ≠ acc.2 then (acc.1 ++ ["\n## " ++ catLabel], catLabel)
    else acc
  (acc1.1 ++ [summaryBullet comp], acc1.2)

/-- The lines get_summary joins. -/
def summaryLines (comps : List TemplateClass) : List String :=
  (comps.foldl summaryStep ([], "")).1

/-- get_summary. -/
def getSummary (st : CatalogState) : String :=
  String.intercalate "\n" (summaryLines st.components)

/-- get_example_source: the name-index hit must be a scene (a
TemplateClass instance is always truthy, so the Python guard reads as
presence plus is_scene). -/
def getExampleSource (st : CatalogState) (name : String) : Option String :=
  match st.byName name with
  | some cls => if cls.is_scene then some cls.source else none
  | none => none

/-! ### Specification-shaped helper definitions -/

/-- Whether a top-level statement is a class definition whose collected
Name-base set avoids SCENE_BASES — the per-class test the selector
counts. -/
def isComponentClassStmt (s : PyStmt) : Bool :=
  match s with
  | .classDef node =>
    !((node.bases.filterMap (fun b =>
        match b with
        | .bname id => some id
        | _ => none)).any (fun b => SCENE_BASES.contains b))
  | .other => false

/-- Maximum of a list of naturals (0 for the empty list). -/
def listMaxN (l : List Nat) : Nat :=
  l.foldl Nat.max 0

/-- Sanity conditions the real Python parser guarantees for every
top-level class definition it reports: the 1-based start line exists in
the source and is not blank (it carries the class keyword), and the
parser reports an end line at or after the start line and within the
source (ast end_lineno, always present on the Python versions the code
runs on). -/
def ValidParse (parse : PyParse) : Prop :=
  ∀ src stmts, parse src = some stmts →
    ∀ node, PyStmt.classDef node ∈ stmts →
      1 ≤ node.lineno ∧
      pyStrip ((splitlinesKeepends src).getD (node.lineno - 1) "") ≠ "" ∧
      ∃ e, node.endLineno = some e ∧ node.lineno ≤ e ∧
        e ≤ (splitlinesKeepends src).length

/-- The grouped listing shape of the summary: walking the components in
registration order with the previous category label at hand, a heading
line is emitted immediately before each component whose label differs
from the previous one, then the component bullet. -/
def summaryLinesSpec (prev : String) : List TemplateClass → List String
  | [] => []
  | comp :: rest =>
    let l := labelOf comp.category
    (if l ≠ prev then ["\n## " ++ l] else []) ++
      (summaryBullet comp :: summaryLinesSpec l rest)

/-- A class of the catalog is an output of the Class Extractor on some
source block of some notebook. -/
def FromExtract (parse : PyParse) (cls : TemplateClass) : Prop :=
  ∃ src nb, cls ∈ extractClassesFromSource parse src nb

/-- The invariant _load preserves notebook by notebook. -/
structure CatalogInv (parse : PyParse) (st : CatalogState) : Prop where
  seenC : st.seenComponents = st.components.map (fun c => c.name)
  seenE : st.seenExamples = st.examples.map (fun e => e.name)
  nodupC : (st.components.map (fun c => c.name)).Nodup
  nodupE : (st.examples.map (fun e => e.name)).Nodup
  compScene : ∀ c ∈ st.components, c.is_scene = false
  exScene : ∀ e ∈ st.examples, e.is_scene = true
  compFrom : ∀ c ∈ st.components, FromExtract parse c
  exFrom : ∀ e ∈ st.examples, FromExtract parse e
  sound : ∀ n c, st.byName n = some c →
    (c ∈ st.components ∨ c ∈ st.examples) ∧ c.name = n
  complete : ∀ c, c ∈ st.components ∨ c ∈ st.examples →
    ∃ d, st.byName c.name = some d

/-! ### Concrete sample inputs -/

/-- A one-line cell declaring a reusable component class. -/
def cellFooComponent : String := "class Foo(VGroup): pass"

/-- A one-line cell declaring a scene class with the same name. -/
def cellFooScene : String := "class Foo(Scene): pass"

/-- A cell whose three component classes interleave two categories. -/
def cellInterleaved : String :=
  "class Node(VGroup): pass\nclass Hadamard(VGroup): pass\nclass Wire(VGroup): pass"

/-- A cell on which ast.parse raises SyntaxError. -/
def brokenSource : String := "class Broken(\n"

/-- Parse oracle agreeing with ast.parse on the sample cells (and
reporting SyntaxError elsewhere). -/
def sampleParse : PyParse := fun s =>
  if s = cellFooComponent then
    some [.classDef { name := "Foo", bases := [.bname "VGroup"], lineno := 1, endLineno := some 1 }]
  else if s = cellFooScene then
    some [.classDef { name := "Foo", bases := [.bname "Scene"], lineno := 1, endLineno := some 1 }]
  else if s = cellInterleaved then
    some [.classDef { name := "Node", bases := [.bname "VGroup"], lineno := 1, endLineno := some 1 },
          .classDef { name := "Hadamard", bases := [.bname "VGroup"], lineno := 2, endLineno := some 2 },
          .classDef { name := "Wire", bases := [.bname "VGroup"], lineno := 3, endLineno := some 3 }]
  else none

/-- Notebook code cell with the given source string. -/
def mkCodeCell (s : String) : JValue :=
  .jobj [("cell_type", .jstr "code"), ("source", .jstr s)]

/-- A notebook whose component cell and scene cell declare the same
class name. -/
def sampleNotebook : JValue :=
  .jobj [("cells", .jarr [mkCodeCell cellFooComponent, mkCodeCell cellFooScene])]

/-- A notebook whose single component cell interleaves categories. -/
def interleavedNotebook : JValue :=
  .jobj [("cells", .jarr [mkCodeCell cellInterleaved])]

/-- The sample scan directory: one well-formed notebook. -/
def sampleNotebooks : List (String × Except PyErr JValue) :=
  [("nb1", .ok sampleNotebook)]

/-- Scan directory containing only the interleaved notebook. -/
def interleavedNotebooks : List (String × Except PyErr JValue) :=
  [("nb2", .ok interleavedNotebook)]

/-- Scan directory in which a corrupt notebook file precedes a
well-formed one. -/
def malformedNotebooks : List (String × Except PyErr JValue) :=
  ("a_corrupt", .error .jsonDecodeError) :: sampleNotebooks

/-- The catalog loaded from sampleNotebooks. -/
def sampleCatalog : CatalogState :=
  match load sampleParse sampleNotebooks with
  | .ok st => st
  | .error _ => initCatalogState

/-- The catalog loaded from interleavedNotebooks. -/
def interleavedCatalog : CatalogState :=
  match load sampleParse interleavedNotebooks with
  | .ok st => st
  | .error _ => initCatalogState

/-- The component the sample load registers first under the name Foo. -/
def fooComponent : TemplateClass :=
  { name := "Foo"
    source := cellFooComponent
    base_classes := ["VGroup"]
    is_scene := false
    requires_latex := false
    category := "other"
    notebook := "nb1" }

/-- The example scene the sample load registers second under the same
name Foo. -/
def fooExample : TemplateClass :=
  { name := "Foo"
    source := cellFooScene
    base_classes := ["Scene"]
    is_scene := true
    requires_latex := false
    category := "examples"
    notebook := "nb1" }

/-- Notebook JSON object fields with no cells key. -/
def fieldsNoCells : List (String × JValue) :=
  [("metadata", .jobj []), ("nbformat", .jnum 4)]

/-- A cell object with no cell_type field. -/
def cellNoType : List (String × JValue) :=
  [("source", .jstr "x = 1")]

/-- A code cell object with no source field. -/
def cellCodeNoSource : List (String × JValue) :=
  [("cell_type", .jstr "code")]

/-! ### Theorems -/

theorem ite_flip_succ (b : Bool) (n : Nat) :
    (if b then n else n + 1) = if !b then n + 1 else n := by
  cases b <;> rfl

theorem componentCountStep_eq (n : Nat) (s : PyStmt) :
    componentCountStep n s = if isComponentClassStmt s then n + 1 else n := by
  cases s with
  | other => simp [componentCountStep, isComponentClassStmt]
  | classDef node =>
    simp only [componentCountStep, isComponentClassStmt]
    rw [ite_flip_succ]

theorem componentCount_shift (l : List PyStmt) :
    ∀ n : Nat, l.foldl componentCountStep n = n + l.foldl componentCountStep 0 := by
  induction l with
  | nil => intro n; simp
  | cons s rest ih =>
    intro n
    simp only [List.foldl_cons]
    rw [ih (componentCountStep n s), ih (componentCountStep 0 s)]
    rw [componentCountStep_eq, componentCountStep_eq]
    cases h : isComponentClassStmt s
    · simp
    · simp
      omega

theorem componentCount_eq_filter (stmts : List PyStmt) :
    componentCount stmts = (stmts.filter isComponentClassStmt).length := by
  induction stmts with
  | nil => rfl
  | cons s rest ih =>
    simp only [componentCount, List.foldl_cons] at *
    rw [componentCount_shift, componentCountStep_eq]
    cases h : isComponentClassStmt s
    · simp [h, List.filter_cons, ih]
    · simp [h, List.filter_cons, ih]
      omega

theorem foldl_max_shift (l : List Nat) :
    ∀ a : Nat, l.foldl Nat.max a = Nat.max a (l.foldl Nat.max 0) := by
  induction l with
  | nil => intro a; simp
  | cons x xs ih =>
    intro a
    simp only [List.foldl_cons]
    rw [ih (Nat.max a x), ih (Nat.max 0 x)]
    simp [Nat.zero_max, Nat.max_assoc]

theorem listMaxN_cons (x : Nat) (l : List Nat) :
    listMaxN (x :: l) = Nat.max x (listMaxN l) := by
  simp only [listMaxN, List.foldl_cons]
  rw [foldl_max_shift]
  simp [Nat.zero_max]

theorem findStep_eq (parse : PyParse) (best : Option String × Nat) (cell : String) :
    findStep parse best cell =
      if best.2 < cellScore parse cell then (some cell, cellScore parse cell) else best := by
  unfold findStep cellScore
  cases h : parse cell with
  | none => simp
  | some stmts => simp

theorem findFold_spec (parse : PyParse) (cells : List String) :
    ∀ (b : Option String) (n : Nat),
      cells.foldl (findStep parse) (b, n) =
        if listMaxN (cells.map (cellScore parse)) ≤ n then (b, n)
        else (cells.find? (fun c => cellScore parse c == listMaxN (cells.map (cellScore parse))),
              listMaxN (cells.map (cellScore parse))) := by
  induction cells with
  | nil => intro b n; simp [listMaxN]
  | cons c cs ih =>
    intro b n
    rw [List.foldl_cons, findStep_eq]
    simp only [List.map_cons, listMaxN_cons, List.find?_cons]
    by_cases h1 : n < cellScore parse c
    · rw [if_pos h1, ih (some c) (cellScore parse c)]
      by_cases h2 : listMaxN (cs.map (cellScore parse)) ≤ cellScore parse c
      · have hmax : Nat.max (cellScore parse c) (listMaxN (cs.map (cellScore parse))) =
            cellScore parse c := Nat.max_eq_left h2
        rw [if_pos h2, hmax, if_neg (by omega : ¬ cellScore parse c ≤ n)]
        simp
      · have hmax : Nat.max (cellScore parse c) (listMaxN (cs.map (cellScore parse))) =
            listMaxN (cs.map (cellScore parse)) := Nat.max_eq_right (Nat.le_of_not_le h2)
        rw [if_neg h2, hmax, if_neg (by omega : ¬ listMaxN (cs.map (cellScore parse)) ≤ n)]
        have hne : (cellScore parse c == listMaxN (cs.map (cellScore parse))) = false := by
          simp only [beq_eq_false_iff_ne, ne_eq]
          omega
        simp [hne]
    · rw [if_neg h1, ih b n]
      by_cases h2 : listMaxN (cs.map (cellScore parse)) ≤ n
      · have hmax2 : Nat.max (cellScore parse c) (listMaxN (cs.map (cellScore parse))) ≤ n :=
          Nat.max_le.mpr ⟨Nat.le_of_not_lt h1, h2⟩
        rw [if_pos h2, if_pos hmax2]
      · have hmax : Nat.max (cellScore parse c) (listMaxN (cs.map (cellScore parse))) =
            listMaxN (cs.map (cellScore parse)) :=
          Nat.max_eq_right
            (Nat.le_of_lt (Nat.lt_of_le_of_lt (Nat.le_of_not_lt h1) (Nat.lt_of_not_le h2)))
        rw [if_neg h2, hmax, if_neg h2]
        have hne : (cellScore parse c == listMaxN (cs.map (cellScore parse))) = false := by
          simp only [beq_eq_false_iff_ne, ne_eq]
          omega
        simp [hne]

/-- C4: for every ordered list of code-cell sources, a cell scores the
number of its top-level class definitions whose base-class-name set
avoids the scene-base set (zero on parse failure), and the selector
returns the first cell attaining the strictly greatest score, or none
(a normal outcome, not an error) when every cell scores zero, the empty
list included. -/
theorem claim_C4_component_cell_selector (parse : PyParse) (cells : List String) :
    (∀ cell, cellScore parse cell =
      (match parse cell with
       | none => 0
       | some stmts => (stmts.filter isComponentClassStmt).length))
    ∧ findComponentCell parse cells =
      (if listMaxN (cells.map (cellScore parse)) = 0 then none
       else cells.find? (fun c => cellScore parse c == listMaxN (cells.map (cellScore parse)))) := by
  constructor
  · intro cell
    unfold cellScore
    cases h : parse cell with
    | none => rfl
    | some stmts => exact componentCount_eq_filter stmts
  · unfold findComponentCell
    rw [findFold_spec]
    by_cases h : listMaxN (cells.map (cellScore parse)) = 0
    · rw [if_pos h, if_pos (Nat.le_of_eq h)]
    · rw [if_neg h, if_neg (by omega)]

/-- C8: a source string on which the parser fails with SyntaxError
yields an empty extraction result from the Class Extractor, not a
raised failure. -/
theorem claim_C8_unparseable_source (parse : PyParse) (source nbName : String)
    (h : parse source = none) :
    extractClassesFromSource parse source nbName = [] := by
  unfold extractClassesFromSource
  rw [h]

/-- C8 witness: at the malformed input class Broken followed by an open
parenthesis, where ast.parse raises SyntaxError, extraction returns the
empty list. -/
theorem claim_C8_witness :
    sampleParse brokenSource = none ∧
    extractClassesFromSource sampleParse brokenSource "nb" = [] :=
  ⟨by decide, claim_C8_unparseable_source sampleParse brokenSource "nb" (by decide)⟩

theorem processCell_no_type (cellFields : List (String × JValue))
    (h : cellFields.lookup "cell_type" = none) :
    processCell (.jobj cellFields) = .ok none := by
  simp [processCell, dictGet, h, eqStrCode]

theorem processCell_code_no_source (cellFields : List (String × JValue))
    (hct : cellFields.lookup "cell_type" = some (.jstr "code"))
    (hsrc : cellFields.lookup "source" = none) :
    processCell (.jobj cellFields) = .ok none := by
  simp only [processCell, dictGet]
  rw [hct, hsrc]
  rfl

theorem extract_no_cells (fields : List (String × JValue))
    (h : fields.lookup "cells" = none) :
    extractCodeCells (.jobj fields) = .ok [] := by
  simp only [extractCodeCells, dictGet]
  rw [h]
  rfl

theorem cellsLoop_skip (cell : JValue) (h : processCell cell = .ok none)
    (l1 l2 : List JValue) :
    ∀ acc : List String, cellsLoop (l1 ++ cell :: l2) acc = cellsLoop (l1 ++ l2) acc := by
  induction l1 with
  | nil =>
    intro acc
    simp only [List.nil_append, cellsLoop, h]
  | cons x xs ih =>
    intro acc
    cases hx : processCell x with
    | error e => simp [cellsLoop, hx]
    | ok o =>
      cases o with
      | none =>
        simp only [List.cons_append, cellsLoop, hx]
        exact ih acc
      | some t =>
        simp only [List.cons_append, cellsLoop, hx]
        exact ih (acc ++ [t])

/-- C10: the Cell Extractor tolerates structurally incomplete but valid
notebook content without failing — a parsed notebook without a
top-level cells sequence yields an empty cell list; a cell object with
no cell_type field is skipped as non-code; a code cell object with no
source field is treated as empty and excluded; and such cells drop out
of the cell walk without raising. -/
theorem claim_C10_structural_tolerance :
    (∀ fields : List (String × JValue), fields.lookup "cells" = none →
      extractCodeCells (.jobj fields) = .ok [])
    ∧ (∀ cellFields : List (String × JValue), cellFields.lookup "cell_type" = none →
      processCell (.jobj cellFields) = .ok none)
    ∧ (∀ cellFields : List (String × JValue),
        cellFields.lookup "cell_type" = some (.jstr "code") →
        cellFields.lookup "source" = none →
        processCell (.jobj cellFields) = .ok none)
    ∧ (∀ (l1 l2 : List JValue) (acc : List String) (cellFields : List (String × JValue)),
        cellFields.lookup "cell_type" = none →
        cellsLoop (l1 ++ JValue.jobj cellFields :: l2) acc = cellsLoop (l1 ++ l2) acc)
    ∧ (∀ (l1 l2 : List JValue) (acc : List String) (cellFields : List (String × JValue)),
        cellFields.lookup "cell_type" = some (.jstr "code") →
        cellFields.lookup "source" = none →
        cellsLoop (l1 ++ JValue.jobj cellFields :: l2) acc = cellsLoop (l1 ++ l2) acc) := by
  refine ⟨extract_no_cells, processCell_no_type, processCell_code_no_source, ?_, ?_⟩
  · intro l1 l2 acc cellFields h
    exact cellsLoop_skip (JValue.jobj cellFields) (processCell_no_type cellFields h) l1 l2 acc
  · intro l1 l2 acc cellFields hct hsrc
    exact cellsLoop_skip (JValue.jobj cellFields)
      (processCell_code_no_source cellFields hct hsrc) l1 l2 acc

/-- C10 witness: concrete incomplete notebook structures — no cells
key, a cell without cell_type, a code cell without source — all
processed without error. -/
theorem claim_C10_witness :
    extractCodeCells (.jobj fieldsNoCells) = .ok []
    ∧ processCell (.jobj cellNoType) = .ok none
    ∧ processCell (.jobj cellCodeNoSource) = .ok none
    ∧ cellsLoop ([mkCodeCell "x = 1"] ++ JValue.jobj cellNoType :: []) [] =
        cellsLoop ([mkCodeCell "x = 1"] ++ []) []
    ∧ cellsLoop ([] ++ JValue.jobj cellCodeNoSource :: [mkCodeCell "x = 1"]) [] =
        cellsLoop ([] ++ [mkCodeCell "x = 1"]) [] :=
  ⟨claim_C10_structural_tolerance.1 fieldsNoCells rfl,
   claim_C10_structural_tolerance.2.1 cellNoType rfl,
   claim_C10_structural_tolerance.2.2.1 cellCodeNoSource rfl rfl,
   claim_C10_structural_tolerance.2.2.2.1 [mkCodeCell "x = 1"] [] [] cellNoType rfl,
   claim_C10_structural_tolerance.2.2.2.2 [] [mkCodeCell "x = 1"] [] cellCodeNoSource
     rfl rfl⟩

theorem extract_mem_cases {parse : PyParse} {src nb : String} {cls : TemplateClass}
    (h : cls ∈ extractClassesFromSource parse src nb) :
    ∃ stmts node, parse src = some stmts ∧ PyStmt.classDef node ∈ stmts ∧
      cls = buildClass stmts (splitlinesKeepends src) nb node := by
  unfold extractClassesFromSource at h
  cases hp : parse src with
  | none => rw [hp] at h; simp at h
  | some stmts =>
    rw [hp] at h
    rw [List.mem_filterMap] at h
    obtain ⟨stmt, hmem, heq⟩ := h
    cases stmt with
    | other => simp at heq
    | classDef node =>
      refine ⟨stmts, node, rfl, hmem, ?_⟩
      simp at heq
      exact heq.symm

theorem buildClass_name (stmts : List PyStmt) (lines : List String) (nb : String)
    (node : PyClassDef) :
    (buildClass stmts lines nb node).name = node.name := rfl

theorem buildClass_source (stmts : List PyStmt) (lines : List String) (nb : String)
    (node : PyClassDef) :
    (buildClass stmts lines nb node).source =
      pyRstrip (String.join ((lines.drop (node.lineno - 1)).take
        ((match node.endLineno with
          | some e => e
          | none => fallbackEnd stmts node lines (node.lineno - 1)) - (node.lineno - 1)))) := rfl

theorem extract_category {parse : PyParse} {src nb : String} {cls : TemplateClass}
    (h : cls ∈ extractClassesFromSource parse src nb) :
    cls.category =
      (match CATEGORY_MAP.lookup cls.name with
       | some c => c
       | none => if cls.is_scene then "examples" else "other") := by
  obtain ⟨stmts, node, _, _, rfl⟩ := extract_mem_cases h
  rfl

theorem dropWhile_ne_nil_of_exists {p : Char → Bool} {l : List Char}
    (h : ∃ c ∈ l, p c = false) : l.dropWhile p ≠ [] := by
  intro hnil
  rw [List.dropWhile_eq_nil_iff] at hnil
  obtain ⟨c, hc, hpc⟩ := h
  have := hnil c hc
  rw [hpc] at this
  exact Bool.false_ne_true this

theorem stringMk_ne_empty {l : List Char} (h : l ≠ []) : String.mk l ≠ "" := by
  intro he
  exact h (by simpa using congrArg String.data he)

theorem pyRstrip_ne_empty {s : String} (h : ∃ c ∈ s.data, pyIsSpace c = false) :
    pyRstrip s ≠ "" := by
  unfold pyRstrip
  apply stringMk_ne_empty
  intro hrev
  rw [List.reverse_eq_nil_iff] at hrev
  obtain ⟨c, hc, hpc⟩ := h
  exact dropWhile_ne_nil_of_exists ⟨c, List.mem_reverse.mpr hc, hpc⟩ hrev

theorem pyStrip_ne_empty_exists {s : String} (h : pyStrip s ≠ "") :
    ∃ c ∈ s.data, pyIsSpace c = false := by
  by_contra hall
  push_neg at hall
  apply h
  unfold pyStrip
  have h1 : s.data.dropWhile pyIsSpace = [] := by
    rw [List.dropWhile_eq_nil_iff]
    intro c hc
    have := hall c hc
    exact Bool.not_eq_false (pyIsSpace c) |>.mp this
  rw [h1]
  rfl

theorem strFoldl_append_shift (as : List String) :
    ∀ a b : String, as.foldl (fun r s => r ++ s) (a ++ b) = a ++ as.foldl (fun r s => r ++ s) b := by
  induction as with
  | nil => intro a b; rfl
  | cons c cs ih =>
    intro a b
    simp only [List.foldl_cons]
    rw [String.append_assoc, ih]

theorem strJoin_cons (a : String) (as : List String) :
    String.join (a :: as) = a ++ String.join as := by
  show (a :: as).foldl (fun r s => r ++ s) "" = a ++ as.foldl (fun r s => r ++ s) ""
  rw [List.foldl_cons]
  have h0 : ("" ++ a : String) = a ++ "" := by
    rw [String.append_empty]
    rfl
  rw [h0, strFoldl_append_shift]

theorem extract_source_ne_empty {parse : PyParse} (hv : ValidParse parse)
    {src nb : String} {cls : TemplateClass}
    (h : cls ∈ extractClassesFromSource parse src nb) :
    cls.source ≠ "" := by
  obtain ⟨stmts, node, hp, hm, rfl⟩ := extract_mem_cases h
  obtain ⟨h1, hline, e, hend, hle, hlen⟩ := hv src stmts hp node hm
  rw [buildClass_source, hend]
  have hstart_lt : node.lineno - 1 < (splitlinesKeepends src).length := by omega
  have hdrop : (splitlinesKeepends src).drop (node.lineno - 1) =
      (splitlinesKeepends src).get ⟨node.lineno - 1, hstart_lt⟩ ::
        (splitlinesKeepends src).drop (node.lineno - 1 + 1) :=
    List.drop_eq_getElem_cons hstart_lt
  obtain ⟨k, hk⟩ : ∃ k, e - (node.lineno - 1) = k + 1 := ⟨e - (node.lineno - 1) - 1, by omega⟩
  rw [hdrop, hk, List.take_succ_cons, strJoin_cons]
  apply pyRstrip_ne_empty
  have hgetd : (splitlinesKeepends src).getD (node.lineno - 1) "" =
      (splitlinesKeepends src).get ⟨node.lineno - 1, hstart_lt⟩ := by
    rw [List.getD_eq_getElem _ _ hstart_lt]
    simp
  rw [hgetd] at hline
  obtain ⟨c, hc, hpc⟩ := pyStrip_ne_empty_exists hline
  refine ⟨c, ?_, hpc⟩
  rw [String.data_append]
  exact List.mem_append_left _ hc

theorem init_inv (parse : PyParse) : CatalogInv parse initCatalogState := by
  constructor <;> simp [initCatalogState]

theorem registerComponent_inv {parse : PyParse} {st : CatalogState} {cls : TemplateClass}
    (h : CatalogInv parse st) (hfrom : FromExtract parse cls) :
    CatalogInv parse (registerComponent st cls) := by
  unfold registerComponent
  by_cases hcond : cls.is_scene = false ∧ cls.name ∉ st.seenComponents
  · rw [if_pos hcond]
    obtain ⟨hscene, hseen⟩ := hcond
    have hnotin : cls.name ∉ st.components.map (fun c => c.name) := by
      rw [← h.seenC]; exact hseen
    constructor
    · simp [List.map_append, h.seenC]
    · exact h.seenE
    · rw [List.map_append, List.nodup_append]
      refine ⟨h.nodupC, List.nodup_singleton _, ?_⟩
      intro a ha hmem
      simp at hmem
      exact hnotin (hmem ▸ ha)
    · exact h.nodupE
    · intro c hc
      rcases List.mem_append.mp hc with hold | hnew
      · exact h.compScene c hold
      · simp at hnew; rw [hnew]; exact hscene
    · exact h.exScene
    · intro c hc
      rcases List.mem_append.mp hc with hold | hnew
      · exact h.compFrom c hold
      · simp at hnew; rw [hnew]; exact hfrom
    · exact h.exFrom
    · intro n c hbn
      change (if n = cls.name then some cls else st.byName n) = some c at hbn
      by_cases hn : n = cls.name
      · rw [if_pos hn] at hbn
        have : cls = c := by injection hbn
        subst this
        exact ⟨Or.inl (List.mem_append.mpr (Or.inr (by simp))), hn.symm⟩
      · rw [if_neg hn] at hbn
        obtain ⟨hmem, hname⟩ := h.sound n c hbn
        refine ⟨?_, hname⟩
        rcases hmem with hm | hm
        · exact Or.inl (List.mem_append.mpr (Or.inl hm))
        · exact Or.inr hm
    · intro c hc
      show ∃ d, (if c.name = cls.name then some cls else st.byName c.name) = some d
      by_cases hn : c.name = cls.name
      · exact ⟨cls, by rw [if_pos hn]⟩
      · rw [if_neg hn]
        rcases hc with hm | hm
        · rcases List.mem_append.mp hm with hold | hnew
          · exact h.complete c (Or.inl hold)
          · simp at hnew
            exact absurd (by rw [hnew]) hn
        · exact h.complete c (Or.inr hm)
  · rw [if_neg hcond]
    exact h

theorem registerExample_inv {parse : PyParse} {st : CatalogState} {cls : TemplateClass}
    (h : CatalogInv parse st) (hfrom : FromExtract parse cls) :
    CatalogInv parse (registerExample st cls) := by
  unfold registerExample
  by_cases hcond : cls.is_scene = true ∧ cls.name ∉ st.seenExamples
  · rw [if_pos hcond]
    obtain ⟨hscene, hseen⟩ := hcond
    have hnotin : cls.name ∉ st.examples.map (fun e => e.name) := by
      rw [← h.seenE]; exact hseen
    constructor
    · exact h.seenC
    · simp [List.map_append, h.seenE]
    · exact h.nodupC
    · rw [List.map_append, List.nodup_append]
      refine ⟨h.nodupE, List.nodup_singleton _, ?_⟩
      intro a ha hmem
      simp at hmem
      exact hnotin (hmem ▸ ha)
    · exact h.compScene
    · intro e he
      rcases List.mem_append.mp he with hold | hnew
      · exact h.exScene e hold
      · simp at hnew; rw [hnew]; exact hscene
    · exact h.compFrom
    · intro e he
      rcases List.mem_append.mp he with hold | hnew
      · exact h.exFrom e hold
      · simp at hnew; rw [hnew]; exact hfrom
    · intro n c hbn
      change (if n = cls.name then some cls else st.byName n) = some c at hbn
      by_cases hn : n = cls.name
      · rw [if_pos hn] at hbn
        have : cls = c := by injection hbn
        subst this
        exact ⟨Or.inr (List.mem_append.mpr (Or.inr (by simp))), hn.symm⟩
      · rw [if_neg hn] at hbn
        obtain ⟨hmem, hname⟩ := h.sound n c hbn
        refine ⟨?_, hname⟩
        rcases hmem with hm | hm
        · exact Or.inl hm
        · exact Or.inr (List.mem_append.mpr (Or.inl hm))
    · intro c hc
      show ∃ d, (if c.name = cls.name then some cls else st.byName c.name) = some d
      by_cases hn : c.name = cls.name
      · exact ⟨cls, by rw [if_pos hn]⟩
      · rw [if_neg hn]
        rcases hc with hm | hm
        · exact h.complete c (Or.inl hm)
        · rcases List.mem_append.mp hm with hold | hnew
          · exact h.complete c (Or.inr hold)
          · simp at hnew
            exact absurd (by rw [hnew]) hn
  · rw [if_neg hcond]
    exact h

theorem foldl_registerComponent_inv {parse : PyParse} {classes : List TemplateClass}
    (hall : ∀ cls ∈ classes, FromExtract parse cls) :
    ∀ st : CatalogState, CatalogInv parse st →
      CatalogInv parse (classes.foldl registerComponent st) := by
  induction classes with
  | nil => intro st h; exact h
  | cons cls rest ih =>
    intro st h
    rw [List.foldl_cons]
    exact ih (fun c hc => hall c (List.mem_cons_of_mem _ hc))
      (registerComponent st cls)
      (registerComponent_inv h (hall cls (List.mem_cons_self _ _)))

theorem foldl_registerExample_inv {parse : PyParse} {classes : List TemplateClass}
    (hall : ∀ cls ∈ classes, FromExtract parse cls) :
    ∀ st : CatalogState, CatalogInv parse st →
      CatalogInv parse (classes.foldl registerExample st) := by
  induction classes with
  | nil => intro st h; exact h
  | cons cls rest ih =>
    intro st h
    rw [List.foldl_cons]
    exact ih (fun c hc => hall c (List.mem_cons_of_mem _ hc))
      (registerExample st cls)
      (registerExample_inv h (hall cls (List.mem_cons_self _ _)))

theorem examplesFold_inv {parse : PyParse} (nbName : String) (componentCell : Option String)
    (cells : List String) :
    ∀ st : CatalogState, CatalogInv parse st →
      CatalogInv parse (cells.foldl (fun s cellSource =>
        if componentCell = some cellSource then s
        else (extractClassesFromSource parse cellSource nbName).foldl registerExample s) st) := by
  induction cells with
  | nil => intro st h; exact h
  | cons cell rest ih =>
    intro st h
    rw [List.foldl_cons]
    apply ih
    by_cases hc : componentCell = some cell
    · rw [if_pos hc]; exact h
    · rw [if_neg hc]
      exact foldl_registerExample_inv (fun c hmem => ⟨cell, nbName, hmem⟩) st h

theorem processNotebook_inv {parse : PyParse} {st st2 : CatalogState}
    {nb : String × Except PyErr JValue} (h : CatalogInv parse st)
    (hp : processNotebook parse st nb = .ok st2) : CatalogInv parse st2 := by
  unfold processNotebook at hp
  cases hres : extractCodeCellsFile nb.2 with
  | error e => rw [hres] at hp; exact absurd hp (by simp)
  | ok cells =>
    rw [hres] at hp
    simp only at hp
    have hst2 := hp
    injection hst2 with hst2
    subst hst2
    apply examplesFold_inv
    cases hcc : findComponentCell parse cells with
    | none => exact h
    | some cc =>
      simp only
      by_cases hne : cc ≠ ""
      · rw [if_pos hne]
        exact foldl_registerComponent_inv (fun c hmem => ⟨cc, nb.1, hmem⟩) st h
      · rw [if_neg hne]
        exact h

theorem loadAux_inv {parse : PyParse} :
    ∀ (nbs : List (String × Except PyErr JValue)) (st cat : CatalogState),
      CatalogInv parse st → loadAux parse st nbs = .ok cat → CatalogInv parse cat := by
  intro nbs
  induction nbs with
  | nil =>
    intro st cat h hl
    unfold loadAux at hl
    injection hl with hl
    subst hl
    exact h
  | cons nb rest ih =>
    intro st cat h hl
    unfold loadAux at hl
    cases hpn : processNotebook parse st nb with
    | error e => rw [hpn] at hl; exact absurd hl (by simp)
    | ok st1 =>
      rw [hpn] at hl
      exact ih st1 cat (processNotebook_inv h hpn) hl

theorem load_inv {parse : PyParse} {nbs : List (String × Except PyErr JValue)}
    {cat : CatalogState} (h : load parse nbs = .ok cat) : CatalogInv parse cat :=
  loadAux_inv nbs initCatalogState cat (init_inv parse) h

theorem lookup_mem {β : Type} {l : List (String × β)} {k : String} {v : β}
    (h : l.lookup k = some v) : (k, v) ∈ l := by
  induction l with
  | nil => simp [List.lookup] at h
  | cons p rest ih =>
    obtain ⟨pk, pv⟩ := p
    by_cases hk : k = pk
    · subst hk
      simp [List.lookup] at h
      subst h
      exact List.mem_cons_self _ _
    · have hbe : (k == pk) = false := beq_eq_false_iff_ne.mpr hk
      simp [List.lookup, hbe] at h
      exact List.mem_cons_of_mem _ (ih h)

/-- C6: partition invariant — in every loaded catalog every entry of
get_components has is_scene false and every entry of get_examples has
is_scene true. -/
theorem claim_C6_partition (parse : PyParse) (nbs : List (String × Except PyErr JValue))
    (cat : CatalogState) (h : load parse nbs = .ok cat) :
    (∀ c ∈ getComponents cat, c.is_scene = false) ∧
    (∀ e ∈ getExamples cat, e.is_scene = true) :=
  ⟨(load_inv h).compScene, (load_inv h).exScene⟩

/-- C6 witness: the partition invariant at the concrete sample load. -/
theorem claim_C6_witness :
    (∀ c ∈ getComponents sampleCatalog, c.is_scene = false) ∧
    (∀ e ∈ getExamples sampleCatalog, e.is_scene = true) :=
  claim_C6_partition sampleParse sampleNotebooks sampleCatalog rfl

/-- C2 (amended): in every loaded catalog no two components share a
name and no two examples share a name (first registration wins within
each list), and the combined name index is sound and complete for the
union of the two lists; but a name may be registered both as a
component and as an example, in which case the index holds the entry
registered later (dict overwrite), not the first-registered one. -/
theorem claim_C2_amended_name_index (parse : PyParse)
    (nbs : List (String × Except PyErr JValue)) (cat : CatalogState)
    (h : load parse nbs = .ok cat) :
    (cat.components.map (fun c => c.name)).Nodup
    ∧ (cat.examples.map (fun e => e.name)).Nodup
    ∧ (∀ n c, getByName cat n = some c → (c ∈ cat.components ∨ c ∈ cat.examples) ∧ c.name = n)
    ∧ (∀ c, c ∈ cat.components ∨ c ∈ cat.examples →
        ∃ d, getByName cat c.name = some d ∧ d.name = c.name) := by
  have hi := load_inv h
  refine ⟨hi.nodupC, hi.nodupE, hi.sound, ?_⟩
  intro c hc
  obtain ⟨d, hd⟩ := hi.complete c hc
  exact ⟨d, hd, (hi.sound c.name d hd).2⟩

/-- C2 counterexample: loading a notebook whose component cell defines
class Foo extending VGroup and whose other cell defines class Foo
extending Scene registers the name Foo both as a component and as an
example, and get_by_name returns the example registered second, not
the first-registered component — refuting combined-index uniqueness
and first-registered-wins. -/
theorem claim_C2_counterexample :
    load sampleParse sampleNotebooks = .ok sampleCatalog
    ∧ sampleCatalog.components = [fooComponent]
    ∧ sampleCatalog.examples = [fooExample]
    ∧ getByName sampleCatalog "Foo" = some fooExample
    ∧ fooComponent.name = "Foo"
    ∧ fooExample.name = "Foo"
    ∧ fooComponent ≠ fooExample :=
  ⟨rfl, by decide, by decide, rfl, rfl, rfl, by decide⟩

/-- C2 witness: the amended index properties at the concrete sample
load. -/
theorem claim_C2_witness :
    (sampleCatalog.components.map (fun c => c.name)).Nodup
    ∧ (sampleCatalog.examples.map (fun e => e.name)).Nodup
    ∧ (∀ n c, getByName sampleCatalog n = some c →
        (c ∈ sampleCatalog.components ∨ c ∈ sampleCatalog.examples) ∧ c.name = n)
    ∧ (∀ c, c ∈ sampleCatalog.components ∨ c ∈ sampleCatalog.examples →
        ∃ d, getByName sampleCatalog c.name = some d ∧ d.name = c.name) :=
  claim_C2_amended_name_index sampleParse sampleNotebooks sampleCatalog rfl

/-- C7: get_example_source returns the source exactly when the name
index holds an entry with is_scene true for that name; it returns null
when the name is absent from the loaded catalog or when the index
entry is a non-scene component, and never raises. -/
theorem claim_C7_example_source (parse : PyParse)
    (nbs : List (String × Except PyErr JValue)) (cat : CatalogState)
    (h : load parse nbs = .ok cat) (nm : String) :
    (∀ s, getExampleSource cat nm = some s ↔
        ∃ c, getByName cat nm = some c ∧ c.is_scene = true ∧ c.source = s)
    ∧ ((∀ c ∈ cat.components, c.name ≠ nm) → (∀ e ∈ cat.examples, e.name ≠ nm) →
        getExampleSource cat nm = none)
    ∧ (∀ c, getByName cat nm = some c → c.is_scene = false →
        getExampleSource cat nm = none) := by
  refine ⟨?_, ?_, ?_⟩
  · intro s
    unfold getExampleSource getByName
    cases hb : cat.byName nm with
    | none => simp
    | some cls =>
      show (if cls.is_scene = true then some cls.source else none) = some s ↔
        ∃ c, some cls = some c ∧ c.is_scene = true ∧ c.source = s
      by_cases hs : cls.is_scene = true
      · rw [if_pos hs]
        constructor
        · intro he
          injection he with he
          exact ⟨cls, rfl, hs, he⟩
        · rintro ⟨c, hc, hcs, hsrc⟩
          injection hc with hc
          subst hc
          rw [hsrc]
      · rw [if_neg hs]
        constructor
        · intro he
          exact absurd he (by simp)
        · rintro ⟨c, hc, hcs, hsrc⟩
          injection hc with hc
          subst hc
          exact absurd hcs hs
  · intro hcomp hex
    unfold getExampleSource
    cases hb : cat.byName nm with
    | none => rfl
    | some cls =>
      obtain ⟨hmem, hname⟩ := (load_inv h).sound nm cls hb
      exfalso
      rcases hmem with hm | hm
      · exact hcomp cls hm hname
      · exact hex cls hm hname
  · intro c hbn hns
    unfold getByName at hbn
    unfold getExampleSource
    rw [hbn]
    show (if c.is_scene = true then some c.source else none) = none
    rw [if_neg (by rw [hns]; exact Bool.false_ne_true)]

/-- C7 witness: the example-source contract at the concrete sample
load and the shared name Foo. -/
theorem claim_C7_witness :
    (∀ s, getExampleSource sampleCatalog "Foo" = some s ↔
        ∃ c, getByName sampleCatalog "Foo" = some c ∧ c.is_scene = true ∧ c.source = s)
    ∧ ((∀ c ∈ sampleCatalog.components, c.name ≠ "Foo") →
        (∀ e ∈ sampleCatalog.examples, e.name ≠ "Foo") →
        getExampleSource sampleCatalog "Foo" = none)
    ∧ (∀ c, getByName sampleCatalog "Foo" = some c → c.is_scene = false →
        getExampleSource sampleCatalog "Foo" = none) :=
  claim_C7_example_source sampleParse sampleNotebooks sampleCatalog rfl "Foo"

theorem categoryMap_no_examples : ∀ p ∈ CATEGORY_MAP, p.2 ≠ "examples" := by decide

/-- C9: no value of the fixed category table is the examples category,
an unmapped non-scene class falls back to the other category, and
consequently get_by_category applied to examples returns the empty
sequence for every loaded catalog. -/
theorem claim_C9_no_examples_category (parse : PyParse)
    (nbs : List (String × Except PyErr JValue)) (cat : CatalogState)
    (h : load parse nbs = .ok cat) :
    (∀ p ∈ CATEGORY_MAP, p.2 ≠ "examples")
    ∧ (∀ src nb cls, cls ∈ extractClassesFromSource parse src nb → cls.is_scene = false →
        CATEGORY_MAP.lookup cls.name = none → cls.category = "other")
    ∧ getByCategory cat "examples" = [] := by
  refine ⟨categoryMap_no_examples, ?_, ?_⟩
  · intro src nb cls hmem hns hnone
    rw [extract_category hmem, hnone, hns]
    rfl
  · unfold getByCategory
    rw [List.filter_eq_nil_iff]
    intro c hc
    have hscene := (load_inv h).compScene c hc
    obtain ⟨src, nb, hmem⟩ := (load_inv h).compFrom c hc
    have hcat := extract_category hmem
    simp only [beq_iff_eq]
    cases hl : CATEGORY_MAP.lookup c.name with
    | some v =>
      rw [hl] at hcat
      rw [hcat]
      exact categoryMap_no_examples (c.name, v) (lookup_mem hl)
    | none =>
      rw [hl, hscene] at hcat
      rw [hcat]
      decide

/-- C9 witness: at the concrete sample load — which does register an
example scene — get_by_category on examples is empty. -/
theorem claim_C9_witness :
    ((∀ p ∈ CATEGORY_MAP, p.2 ≠ "examples")
    ∧ (∀ src nb cls, cls ∈ extractClassesFromSource sampleParse src nb →
        cls.is_scene = false →
        CATEGORY_MAP.lookup cls.name = none → cls.category = "other")
    ∧ getByCategory sampleCatalog "examples" = [])
    ∧ sampleCatalog.examples ≠ [] :=
  ⟨claim_C9_no_examples_category sampleParse sampleNotebooks sampleCatalog rfl, by decide⟩

theorem string_eq_empty_of_length_zero {s : String} (h : s.length = 0) : s = "" := by
  cases s with
  | mk data =>
    cases data with
    | nil => rfl
    | cons c cs => simp [String.length] at h

theorem intercalate_go_length (l : List String) :
    ∀ acc s : String, acc.length ≤ (String.intercalate.go acc s l).length := by
  induction l with
  | nil => intro acc s; exact Nat.le_refl _
  | cons a as ih =>
    intro acc s
    rw [String.intercalate.go]
    calc acc.length ≤ (acc ++ s ++ a).length := by
          rw [String.length_append, String.length_append]; omega
      _ ≤ _ := ih (acc ++ s ++ a) s

theorem intercalate_cons_ne_empty {x : String} (hx : x ≠ "") (sep : String)
    (xs : List String) : String.intercalate sep (x :: xs) ≠ "" := by
  intro h
  change String.intercalate.go x sep xs = "" at h
  have hlen : (String.intercalate.go x sep xs).length = 0 := by rw [h]; rfl
  have hle := intercalate_go_length xs x sep
  have hx0 : x.length = 0 := by omega
  exact hx (string_eq_empty_of_length_zero hx0)

theorem getComponentSource_none_eq (cat : CatalogState) :
    getComponentSource cat none =
      String.intercalate "\n\n\n" (cat.components.map (fun cls => cls.source)) := by
  unfold getComponentSource
  cases hc : cat.components with
  | nil => rfl
  | cons a rest => rfl

theorem getComponentSource_some_eq (cat : CatalogState) (names : List String) :
    getComponentSource cat (some names) =
      String.intercalate "\n\n\n"
        ((cat.components.filter (fun c => names.contains c.name)).map (fun cls => cls.source)) := by
  have hshow : getComponentSource cat (some names) =
      (if (cat.components.filter (fun c => names.contains c.name)).isEmpty then ""
       else String.intercalate "\n\n\n"
         ((cat.components.filter (fun c => names.contains c.name)).map
           (fun cls => cls.source))) := rfl
  rw [hshow]
  cases hc : cat.components.filter (fun c => names.contains c.name) with
  | nil => rfl
  | cons a rest => rfl

/-- C5: get_component_source with a null names argument concatenates
all component sources in registration order with the three-newline
separator (two blank lines between consecutive entries), and is empty
exactly when there are no components; with a names set it filters to
matching components in registration order before concatenating, and an
empty selection yields the empty string. -/
theorem claim_C5_component_source (parse : PyParse)
    (nbs : List (String × Except PyErr JValue)) (cat : CatalogState)
    (hv : ValidParse parse) (h : load parse nbs = .ok cat) :
    (getComponentSource cat none =
      String.intercalate "\n\n\n" (cat.components.map (fun cls => cls.source)))
    ∧ (getComponentSource cat none = "" ↔ cat.components = [])
    ∧ (∀ names, getComponentSource cat (some names) =
        String.intercalate "\n\n\n"
          ((cat.components.filter (fun c => names.contains c.name)).map (fun cls => cls.source)))
    ∧ (∀ names, cat.components.filter (fun c => names.contains c.name) = [] →
        getComponentSource cat (some names) = "") := by
  refine ⟨getComponentSource_none_eq cat, ?_,
    fun names => getComponentSource_some_eq cat names, ?_⟩
  · constructor
    · intro he
      by_contra hne
      obtain ⟨c, rest, hc⟩ := List.exists_cons_of_ne_nil hne
      have hsrc : c.source ≠ "" := by
        obtain ⟨src, nb, hmem⟩ :=
          (load_inv h).compFrom c (by rw [hc]; exact List.mem_cons_self _ _)
        exact extract_source_ne_empty hv hmem
      rw [getComponentSource_none_eq, hc] at he
      simp only [List.map_cons] at he
      exact intercalate_cons_ne_empty hsrc _ _ he
    · intro he
      rw [getComponentSource_none_eq, he]
      rfl
  · intro names hf
    rw [getComponentSource_some_eq, hf]
    rfl

theorem validParse_sample : ValidParse sampleParse := by
  intro src stmts hp node hm
  unfold sampleParse at hp
  by_cases h1 : src = cellFooComponent
  · rw [if_pos h1] at hp
    injection hp with hp
    subst hp
    subst h1
    simp at hm
    subst hm
    exact ⟨by decide, by decide, 1, rfl, by decide, by decide⟩
  · rw [if_neg h1] at hp
    by_cases h2 : src = cellFooScene
    · rw [if_pos h2] at hp
      injection hp with hp
      subst hp
      subst h2
      simp at hm
      subst hm
      exact ⟨by decide, by decide, 1, rfl, by decide, by decide⟩
    · rw [if_neg h2] at hp
      by_cases h3 : src = cellInterleaved
      · rw [if_pos h3] at hp
        injection hp with hp
        subst hp
        subst h3
        simp at hm
        rcases hm with hm | hm | hm <;> subst hm
        · exact ⟨by decide, by decide, 1, rfl, by decide, by decide⟩
        · exact ⟨by decide, by decide, 2, rfl, by decide, by decide⟩
        · exact ⟨by decide, by decide, 3, rfl, by decide, by decide⟩
      · rw [if_neg h3] at hp
        exact absurd hp (by simp)

/-- C5 witness: the component-source contract at the concrete sample
load. -/
theorem claim_C5_witness :
    (getComponentSource sampleCatalog none =
      String.intercalate "\n\n\n" (sampleCatalog.components.map (fun cls => cls.source)))
    ∧ (getComponentSource sampleCatalog none = "" ↔ sampleCatalog.components = [])
    ∧ (∀ names, getComponentSource sampleCatalog (some names) =
        String.intercalate "\n\n\n"
          ((sampleCatalog.components.filter (fun c => names.contains c.name)).map
            (fun cls => cls.source)))
    ∧ (∀ names, sampleCatalog.components.filter (fun c => names.contains c.name) = [] →
        getComponentSource sampleCatalog (some names) = "") :=
  claim_C5_component_source sampleParse sampleNotebooks sampleCatalog validParse_sample rfl

theorem processNotebook_ok_of_extract {parse : PyParse} {st : CatalogState}
    {nb : String × Except PyErr JValue} (h : (extractCodeCellsFile nb.2).isOk = true) :
    ∃ st2, processNotebook parse st nb = .ok st2 := by
  unfold processNotebook
  cases hres : extractCodeCellsFile nb.2 with
  | error e => rw [hres] at h; simp [Except.isOk, Except.toBool] at h
  | ok cells => exact ⟨_, rfl⟩

theorem loadAux_error_propagates (parse : PyParse)
    (post : List (String × Except PyErr JValue)) (nm : String) (e : PyErr) :
    ∀ (pre : List (String × Except PyErr JValue)) (st : CatalogState),
      (∀ nb ∈ pre, (extractCodeCellsFile nb.2).isOk = true) →
      loadAux parse st (pre ++ (nm, Except.error e) :: post) = .error e := by
  intro pre
  induction pre with
  | nil =>
    intro st hall
    rw [List.nil_append]
    unfold loadAux
    have hpn : processNotebook parse st (nm, Except.error e) = .error e := rfl
    rw [hpn]
  | cons nb rest ih =>
    intro st hall
    rw [List.cons_append]
    unfold loadAux
    obtain ⟨st2, hst2⟩ := processNotebook_ok_of_extract (hall nb (List.mem_cons_self _ _))
    rw [hst2]
    exact ih st2 (fun x hx => hall x (List.mem_cons_of_mem _ hx))

/-- C1 (amended): extraction of code cells from a notebook whose
content is not valid structured notebook content fails with the
malformed-notebook error, and the load does NOT catch it per-notebook:
the error propagates past the notebooks already processed and aborts
the whole catalog build. -/
theorem claim_C1_amended_load_aborts (parse : PyParse)
    (pre : List (String × Except PyErr JValue)) (nm : String) (e : PyErr)
    (post : List (String × Except PyErr JValue))
    (h : ∀ nb ∈ pre, (extractCodeCellsFile nb.2).isOk = true) :
    extractCodeCellsFile (Except.error e) = Except.error e
    ∧ load parse (pre ++ (nm, Except.error e) :: post) = Except.error e :=
  ⟨rfl, loadAux_error_propagates parse post nm e pre initCatalogState h⟩

/-- C1 counterexample: with a corrupt notebook file first in the scan
directory, the whole load returns the malformed-notebook error instead
of skipping that notebook and continuing; the same directory without
the corrupt file loads a catalog that does register a component. -/
theorem claim_C1_counterexample :
    load sampleParse malformedNotebooks = Except.error PyErr.jsonDecodeError
    ∧ load sampleParse sampleNotebooks = Except.ok sampleCatalog
    ∧ sampleCatalog.components ≠ [] :=
  ⟨rfl, rfl, by decide⟩

/-- C1 witness: one well-formed notebook followed by a corrupt one —
the load aborts with the decode error. -/
theorem claim_C1_witness :
    (∀ nb ∈ sampleNotebooks, (extractCodeCellsFile nb.2).isOk = true)
    ∧ (extractCodeCellsFile (Except.error PyErr.jsonDecodeError) =
        Except.error PyErr.jsonDecodeError
      ∧ load sampleParse
          (sampleNotebooks ++ ("z_corrupt", Except.error PyErr.jsonDecodeError) :: []) =
        Except.error PyErr.jsonDecodeError) :=
  ⟨by decide,
   claim_C1_amended_load_aborts sampleParse sampleNotebooks "z_corrupt"
     PyErr.jsonDecodeError [] (by decide)⟩

theorem summaryStep_eq (acc : List String) (cur : String) (comp : TemplateClass) :
    summaryStep (acc, cur) comp =
      if labelOf comp.category ≠ cur
      then ((acc ++ ["\n## " ++ labelOf comp.category]) ++ [summaryBullet comp],
            labelOf comp.category)
      else (acc ++ [summaryBullet comp], cur) := by
  show ((if labelOf comp.category ≠ cur
         then (acc ++ ["\n## " ++ labelOf comp.category], labelOf comp.category)
         else (acc, cur)).1 ++ [summaryBullet comp],
        (if labelOf comp.category ≠ cur
         then (acc ++ ["\n## " ++ labelOf comp.category], labelOf comp.category)
         else (acc, cur)).2) = _
  by_cases hl : labelOf comp.category ≠ cur
  · rw [if_pos hl, if_pos hl]
  · rw [if_neg hl, if_neg hl]

theorem summaryFold_spec (comps : List TemplateClass) :
    ∀ (acc : List String) (cur : String),
      (comps.foldl summaryStep (acc, cur)).1 = acc ++ summaryLinesSpec cur comps := by
  induction comps with
  | nil => intro acc cur; simp [summaryLinesSpec]
  | cons comp rest ih =>
    intro acc cur
    rw [List.foldl_cons, summaryStep_eq]
    by_cases hl : labelOf comp.category ≠ cur
    · rw [if_pos hl, ih]
      simp only [summaryLinesSpec]
      rw [if_pos hl]
      simp [List.append_assoc]
    · rw [if_neg hl, ih]
      have hcur : labelOf comp.category = cur := not_not.mp hl
      simp only [summaryLinesSpec]
      rw [if_neg hl, hcur]
      simp [List.append_assoc]

/-- C3 (amended): get_summary walks the components in registration
order and emits a heading line immediately before each component whose
category label differs from the immediately preceding component's
label (the initial previous label being empty), followed by that
component's bullet line — i.e. one heading per maximal run of
consecutive same-label components, so a category's heading repeats
when its components are not contiguous in registration order. -/
theorem claim_C3_amended_summary (cat : CatalogState) :
    getSummary cat = String.intercalate "\n" (summaryLinesSpec "" cat.components) := by
  unfold getSummary summaryLines
  rw [summaryFold_spec cat.components [] ""]
  rw [List.nil_append]

/-- C3 counterexample: a loaded catalog registering categories
circuit_elements, quantum_gates, circuit_elements in that order makes
get_summary print the Circuit Elements heading twice, refuting
each-heading-printed-exactly-once under interleaved registration. -/
theorem claim_C3_counterexample :
    load sampleParse interleavedNotebooks = Except.ok interleavedCatalog
    ∧ (interleavedCatalog.components.map (fun c => c.category)) =
        ["circuit_elements", "quantum_gates", "circuit_elements"]
    ∧ (summaryLines interleavedCatalog.components).count "\n## Circuit Elements" = 2
    ∧ getSummary interleavedCatalog =
        String.intercalate "\n" (summaryLines interleavedCatalog.components) :=
  ⟨rfl, by decide, by decide, rfl⟩

end StoryMath
